import Mathlib

/-!
Verification of the country-code-selector phone form.

Shallow embedding of the core logic of the repository:
the pure phone-number formatter `formatPhoneNumber`, the phone form
state machine of the `usePhoneForm` hook (`handlePhoneChange`,
`handleCountryChange`, `isSubmitDisabled`), and the `CountrySelector`
component logic (`countriesArray`, `filteredCountries`, and the
default-selection effect).

Modelling conventions:
- JavaScript strings are Lean `String`s; all characters involved are
  ASCII, so code-unit slicing coincides with character slicing.
- `value.replace(/\D/g, "")` is `stripDigits` (the regexp class `\d`
  is exactly the ASCII digits, matching `Char.isDigit`).
- `str.slice(a, b)` with natural bounds is `jsSlice`: characters with
  indices `a ≤ i < min b (length str)`; `str.slice(a)` is `jsSliceFrom`.
- The `phone_length` field is a numeric string in the source and is
  always consumed through `parseInt(..., 10)`; we model it by its
  parsed value, a `Nat`.
- React state updates are modelled by explicit state passing: each
  handler is a function from the current `PhoneFormState` (plus the
  event payload) to the next state.
-/

/-- `value.replace(/\D/g, "")`: keep exactly the ASCII digit characters. -/
def stripDigits (s : String) : String :=
  String.mk (s.toList.filter Char.isDigit)

/-- JavaScript `s.slice(a, b)` for natural `a ≤ b` cases: the characters
with indices `a ≤ i < min b (length s)`. -/
def jsSlice (s : String) (a b : Nat) : String :=
  String.mk ((s.toList.drop a).take (b - a))

/-- JavaScript `s.slice(a)`: the characters from index `a` on. -/
def jsSliceFrom (s : String) (a : Nat) : String :=
  String.mk (s.toList.drop a)

/-- `formatPhoneNumber` from `usePhoneForm`:

```js
const digits = value.replace(/\D/g, "");
if (digits.length <= 3) formatted = `(${digits}`;
else if (digits.length <= 6)
  formatted = `(${digits.slice(0, 3)}) ${digits.slice(3)}`;
else
  formatted = `(${digits.slice(0, 3)}) ${digits.slice(3, 6)}-${digits.slice(6, phoneLength)}`;
return formatted;
```
-/
def formatPhoneNumber (value : String) (phoneLength : Nat) : String :=
  let digits := stripDigits value
  if digits.length ≤ 3 then
    "(" ++ digits
  else if digits.length ≤ 6 then
    "(" ++ jsSlice digits 0 3 ++ ") " ++ jsSliceFrom digits 3
  else
    "(" ++ jsSlice digits 0 3 ++ ") " ++ jsSlice digits 3 6 ++ "-" ++
      jsSlice digits 6 phoneLength

/-- A country record as served by the Country Directory.  The source
declares `phone_length` as a numeric string and always reads it through
`parseInt(..., 10)`; we model the parsed value. -/
structure Country where
  id : String
  name : String
  calling_code : String
  phone_length : Nat
deriving DecidableEq, Repr

/-- A country record extended with the ISO region code under which the
directory stores it (`interface CountryWithISO extends Country`). -/
structure CountryWithISO extends Country where
  iso : String
deriving DecidableEq, Repr

/-- The state owned by the `usePhoneForm` hook: the three `useState`
cells `selectedCountry`, `phoneNumber` (the formatted display text) and
`error` (the validation error). -/
structure PhoneFormState where
  selectedCountry : Option CountryWithISO
  phoneNumber : String
  error : Option String
deriving DecidableEq, Repr

/-- The state of the hook on mount: `useState(null)`, `useState("")`,
`useState(null)`. -/
def initialState : PhoneFormState :=
  { selectedCountry := none, phoneNumber := "", error := none }

/-- `handlePhoneChange` from `usePhoneForm`: strips non-digits from the
input event value, returns unchanged (a no-op) when no country is
selected, otherwise stores the formatted number and sets or clears the
validation error by an exact length comparison. -/
def handlePhoneChange (s : PhoneFormState) (inputText : String) : PhoneFormState :=
  let inputValue := stripDigits inputText
  match s.selectedCountry with
  | none => s
  | some c =>
    let phoneLength := c.phone_length
    let formatted := formatPhoneNumber inputValue phoneLength
    { s with
      phoneNumber := formatted,
      error :=
        if inputValue.length ≠ phoneLength then
          some ("Phone number must be " ++ toString phoneLength ++ " digits long.")
        else
          none }

/-- `handleCountryChange` from `usePhoneForm`: stores the new selection
and resets the phone number and the error. -/
def handleCountryChange (s : PhoneFormState) (country : CountryWithISO) : PhoneFormState :=
  { s with
    selectedCountry := some country,
    phoneNumber := "",
    error := none }

/-- `isSubmitDisabled` from `usePhoneForm`: disabled with no selection,
otherwise disabled iff the count of digits currently in the (formatted)
phone number is below the required length. -/
def isSubmitDisabled (s : PhoneFormState) : Bool :=
  match s.selectedCountry with
  | none => true
  | some c =>
    let requiredLength := c.phone_length
    let currentLength := (stripDigits s.phoneNumber).length
    currentLength < requiredLength

/-- The events the phone form reacts to. -/
inductive FormEvent where
  | selectCountry (c : CountryWithISO)
  | editPhone (t : String)

/-- One transition of the phone form state machine. -/
def formStep (s : PhoneFormState) (e : FormEvent) : PhoneFormState :=
  match e with
  | FormEvent.selectCountry c => handleCountryChange s c
  | FormEvent.editPhone t => handlePhoneChange s t

/-- States reachable from the mount state by selection and edit events. -/
inductive Reachable : PhoneFormState → Prop where
  | init : Reachable initialState
  | select (s : PhoneFormState) (c : CountryWithISO) :
      Reachable s → Reachable (handleCountryChange s c)
  | edit (s : PhoneFormState) (t : String) :
      Reachable s → Reachable (handlePhoneChange s t)

/-! The `CountrySelector` component logic. -/

/-- `Object.entries(countries).map(([iso, country]) => ({...country, iso}))`:
the Country Directory record turned into an array in iteration order.  A
JavaScript object with string keys iterates in insertion order, so the
directory snapshot is modelled as an association list. -/
def countriesArray (countries : List (String × Country)) : List CountryWithISO :=
  countries.map (fun p => { toCountry := p.2, iso := p.1 })

/-- Model of the code-unit test behind `String.prototype.startsWith`:
`isPrefixB needle hay` holds when `hay` begins with `needle`. -/
def isPrefixB : List Char → List Char → Bool
  | [], _ => true
  | _ :: _, [] => false
  | a :: as, b :: bs => a == b && isPrefixB as bs

/-- Model of `String.prototype.includes`: some suffix of `hay` begins
with `needle`. -/
def substrB (needle : List Char) : List Char → Bool
  | [] => isPrefixB needle []
  | c :: rest => isPrefixB needle (c :: rest) || substrB needle rest

/-- `hay.includes(needle)` on strings. -/
def jsIncludes (hay needle : String) : Bool :=
  substrB needle.toList hay.toList

/-- Model of `String.prototype.toLowerCase`: lowercase every character
(character by character; `Char.toLower` matches it on the ASCII names
involved here). -/
def jsToLower (s : String) : String :=
  String.mk (s.toList.map Char.toLower)

/-- The spec wording of substring containment: the lowercased needle
occurs contiguously inside the lowercased haystack. -/
def ContainsSpec (hay needle : String) : Prop :=
  ∃ l r, hay.toList = l ++ needle.toList ++ r

/-- `filteredCountries` from `CountrySelector`:

```js
countriesArray.filter((country) =>
  country.name.toLowerCase().includes(searchTerm.toLowerCase()))
```
-/
def filteredCountries (arr : List CountryWithISO) (searchTerm : String) : List CountryWithISO :=
  arr.filter (fun country => jsIncludes (jsToLower country.name) (jsToLower searchTerm))

/-- The state visible to the default-selection effect of
`CountrySelector`: the directory prop, the upstream selection prop, and
the search term (the search term is irrelevant to the effect because it
is not among the effect dependencies). -/
structure SelectorModel where
  dir : List (String × Country)
  selection : Option CountryWithISO
  search : String
deriving DecidableEq, Repr

/-- Events that can reach the selector: a new directory snapshot, an
upstream selection (the user picking an entry routes through the same
upward callback), and a search-term change. -/
inductive SelEvent where
  | setDirectory (dir : List (String × Country))
  | userSelect (c : CountryWithISO)
  | setSearch (q : String)

/-- Apply an event to the selector state, before effects run. -/
def applyEvent (s : SelectorModel) (e : SelEvent) : SelectorModel :=
  match e with
  | SelEvent.setDirectory d => { s with dir := d }
  | SelEvent.userSelect c => { s with selection := some c }
  | SelEvent.setSearch q => { s with search := q }

/-- The default-selection effect of `CountrySelector`:

```js
useEffect(() => {
  if (countriesArray.length > 0 && !selectedCountry) {
    onSelectCountry(countriesArray[0]);
  }
}, [countriesArray, selectedCountry, onSelectCountry]);
```

The upward callback is `handleCountryChange`, which (synchronously, in
the §5 event model) installs the chosen country as the selection.  The
second component reports whether the callback fired. -/
def autoSelect (s : SelectorModel) : SelectorModel × Bool :=
  if 0 < (countriesArray s.dir).length ∧ s.selection = none then
    ({ s with selection := (countriesArray s.dir).head? }, true)
  else
    (s, false)

/-- One step of the selector model: the event is applied and then the
default-selection effect runs (effects run after each render caused by
a dependency change; running the effect after every event only adds
chances to fire, so the at-most-once bound proved below is conservative). -/
def stepSel (s : SelectorModel) (e : SelEvent) : SelectorModel × Bool :=
  autoSelect (applyEvent s e)

/-- Run the selector over an event sequence, counting how many times the
default-selection effect fires. -/
def runSel : SelectorModel → List SelEvent → SelectorModel × Nat
  | s, [] => (s, 0)
  | s, e :: es =>
    let p := stepSel s e
    let q := runSel p.1 es
    (q.1, (if p.2 then 1 else 0) + q.2)

/-- The selector state on mount: empty directory, no selection, empty
search term. -/
def initSelector : SelectorModel :=
  { dir := [], selection := none, search := "" }

/-! Concrete sample data used by witnesses and counterexamples. -/

/-- A directory entry with the ten-digit expected length of the
US-style scenarios in the spec. -/
def usC : Country :=
  { id := "1", name := "United States", calling_code := "+1", phone_length := 10 }

/-- The US entry as stored under its region code. -/
def usSel : CountryWithISO :=
  { toCountry := usC, iso := "US" }

/-- Sample directory entry named France (expected length 9). -/
def franceSel : CountryWithISO :=
  { id := "2", name := "France", calling_code := "+33", phone_length := 9, iso := "FR" }

/-- Sample directory entry named Germany (expected length 10). -/
def germanySel : CountryWithISO :=
  { id := "3", name := "Germany", calling_code := "+49", phone_length := 10, iso := "DE" }

/-- The form state right after the US entry is selected. -/
def stUS : PhoneFormState :=
  handleCountryChange initialState usSel

/-! Basic facts relating the `String` wrappers to list operations. -/

@[simp] theorem toList_mk (l : List Char) : (String.mk l).toList = l := rfl

@[simp] theorem toList_append (s t : String) : (s ++ t).toList = s.toList ++ t.toList := rfl

theorem length_toList (s : String) : s.length = s.toList.length := rfl

@[simp] theorem stripDigits_toList (s : String) :
    (stripDigits s).toList = s.toList.filter Char.isDigit := rfl

theorem string_ext_of_toList {s t : String} (h : s.toList = t.toList) : s = t := by
  cases s; cases t; simpa [String.toList] using congrArg String.mk h

/-! Digit-preservation lemmas about `stripDigits`. -/

theorem all_isDigit_stripDigits (s : String) :
    ∀ c ∈ (stripDigits s).toList, c.isDigit = true := by
  intro c hc
  exact List.of_mem_filter hc

theorem filter_isDigit_eq_self {l : List Char} (h : ∀ c ∈ l, c.isDigit = true) :
    l.filter Char.isDigit = l :=
  List.filter_eq_self.mpr h

theorem stripDigits_stripDigits (s : String) :
    stripDigits (stripDigits s) = stripDigits s := by
  apply string_ext_of_toList
  simp only [stripDigits_toList]
  exact filter_isDigit_eq_self (all_isDigit_stripDigits s)


theorem mk_toList (s : String) : String.mk s.toList = s := by
  cases s; rfl

theorem paren_filter : (("(" : String).toList).filter Char.isDigit = [] := by decide

theorem space_filter : ((") " : String).toList).filter Char.isDigit = [] := by decide

theorem dash_filter : (("-" : String).toList).filter Char.isDigit = [] := by decide

/-- The digit characters appearing in the output of `formatPhoneNumber`
on an all-digit list: all input digits when there are at most six of
them, otherwise the first six followed by the slice of the remainder up
to position `L`. -/
theorem filter_format_core (l : List Char) (hall : ∀ c ∈ l, c.isDigit = true) (L : Nat) :
    ((formatPhoneNumber (String.mk l) L).toList).filter Char.isDigit =
      if l.length ≤ 6 then l else l.take 6 ++ (l.drop 6).take (L - 6) := by
  have hsd : stripDigits (String.mk l) = String.mk l :=
    string_ext_of_toList (by
      simp only [stripDigits_toList, toList_mk]
      exact filter_isDigit_eq_self hall)
  have htake : ∀ k, (l.take k).filter Char.isDigit = l.take k := fun k =>
    filter_isDigit_eq_self (fun c hc => hall c (List.take_subset _ _ hc))
  have hdrop : ∀ k, (l.drop k).filter Char.isDigit = l.drop k := fun k =>
    filter_isDigit_eq_self (fun c hc => hall c (List.drop_subset _ _ hc))
  have hdt : ∀ j k, ((l.drop j).take k).filter Char.isDigit = (l.drop j).take k :=
    fun j k => filter_isDigit_eq_self
      (fun c hc => hall c (List.drop_subset _ _ (List.take_subset _ _ hc)))
  unfold formatPhoneNumber
  simp only [hsd, length_toList, toList_mk, jsSlice, jsSliceFrom]
  split_ifs with h3 h6 h6
  · rw [toList_append, List.filter_append, paren_filter, List.nil_append,
      toList_mk, filter_isDigit_eq_self hall]
  · omega
  · simp only [toList_append, List.filter_append, paren_filter, space_filter,
      toList_mk, List.nil_append, List.append_nil, List.drop_zero]
    rw [htake, hdrop]
    exact List.take_append_drop 3 l
  · simp only [toList_append, List.filter_append, paren_filter, space_filter,
      dash_filter, toList_mk, List.nil_append, List.append_nil, List.drop_zero]
    rw [htake, hdt, hdt]
    have h63 : (6 : Nat) - 3 = 3 := rfl
    rw [h63]
    have htwo : l.take 3 ++ (l.drop 3).take 3 = l.take 6 := by
      have h := List.take_add l 3 3
      simpa using h.symm
    rw [htwo]

theorem format_stripDigits (v : String) (L : Nat) :
    formatPhoneNumber (stripDigits v) L = formatPhoneNumber v L := by
  unfold formatPhoneNumber
  rw [stripDigits_stripDigits]

/-- String-level version of `filter_format_core`. -/
theorem digits_format (v : String) (L : Nat) :
    (stripDigits (formatPhoneNumber v L)).toList =
      if (stripDigits v).length ≤ 6 then (stripDigits v).toList
      else (stripDigits v).toList.take 6 ++
        ((stripDigits v).toList.drop 6).take (L - 6) := by
  have h := filter_format_core (stripDigits v).toList (all_isDigit_stripDigits v) L
  rw [mk_toList, format_stripDigits] at h
  rw [stripDigits_toList]
  exact h

/-- How many digit characters the formatted display text holds. -/
theorem digits_format_length (v : String) (L : Nat) :
    (stripDigits (formatPhoneNumber v L)).length =
      if (stripDigits v).length ≤ 6 then (stripDigits v).length
      else 6 + min (L - 6) ((stripDigits v).length - 6) := by
  rw [length_toList, digits_format]
  simp only [length_toList] at *
  split_ifs with h6
  · rfl
  · rw [List.length_append, List.length_take, List.length_take, List.length_drop]
    omega

/-- Claim C1: for every input string `value` and expected length `L`,
the formatter discards all non-digit characters, obtaining the digit
string `d` with `n = length d`, and returns `"(" ++ d` when `n ≤ 3`;
`"(" ++ d[0:3] ++ ") " ++ d[3:n]` when `3 < n ≤ 6`; and
`"(" ++ d[0:3] ++ ") " ++ d[3:6] ++ "-" ++ d[6:min n L]` when `n > 6`
(half-open index ranges, rendered below with `List.take` and
`List.drop`). -/
theorem c1_formatter_spec (v : String) (L : Nat) :
    formatPhoneNumber v L =
      if (stripDigits v).length ≤ 3 then
        "(" ++ stripDigits v
      else if (stripDigits v).length ≤ 6 then
        "(" ++ String.mk ((stripDigits v).toList.take 3) ++ ") " ++
          String.mk (((stripDigits v).toList.drop 3).take ((stripDigits v).length - 3))
      else
        "(" ++ String.mk ((stripDigits v).toList.take 3) ++ ") " ++
          String.mk (((stripDigits v).toList.drop 3).take 3) ++ "-" ++
          String.mk (((stripDigits v).toList.drop 6).take (min (stripDigits v).length L - 6)) := by
  unfold formatPhoneNumber
  simp only [jsSlice, jsSliceFrom, List.drop_zero, Nat.sub_zero]
  split_ifs with h3 h6
  · rfl
  · rw [length_toList]
    have hd : ((stripDigits v).toList.drop 3).take ((stripDigits v).toList.length - 3) =
        (stripDigits v).toList.drop 3 :=
      List.take_of_length_le (by rw [List.length_drop])
    rw [hd]
  · rw [length_toList] at h3 h6 ⊢
    have h63 : (6 : Nat) - 3 = 3 := rfl
    rw [h63]
    have hd : ((stripDigits v).toList.drop 6).take (L - 6) =
        ((stripDigits v).toList.drop 6).take (min (stripDigits v).toList.length L - 6) := by
      apply List.take_eq_take.mpr
      rw [List.length_drop]
      simp only [Nat.min_def]
      split_ifs <;> omega
    rw [hd]

/-- Closed form of the formatter on an all-digit character list. -/
theorem format_of_digits (l : List Char) (hall : ∀ c ∈ l, c.isDigit = true) (L : Nat) :
    formatPhoneNumber (String.mk l) L =
      if l.length ≤ 3 then "(" ++ String.mk l
      else if l.length ≤ 6 then
        "(" ++ String.mk (l.take 3) ++ ") " ++ String.mk (l.drop 3)
      else
        "(" ++ String.mk (l.take 3) ++ ") " ++ String.mk ((l.drop 3).take 3) ++ "-" ++
          String.mk ((l.drop 6).take (L - 6)) := by
  have hsd : stripDigits (String.mk l) = String.mk l :=
    string_ext_of_toList (by
      simp only [stripDigits_toList, toList_mk]
      exact filter_isDigit_eq_self hall)
  unfold formatPhoneNumber
  simp only [hsd, jsSlice, jsSliceFrom, toList_mk, length_toList, List.drop_zero,
    Nat.sub_zero]

/-- Claim C8 (amended): when the expected length exceeds the six digits
already consumed by the area-code and exchange segments (`7 ≤ L`),
re-running the formatter on the digit-extraction of its own output
yields the same output as the original call. -/
theorem c8_format_idempotent (v : String) (L : Nat) (h : 7 ≤ L) :
    formatPhoneNumber (stripDigits (formatPhoneNumber v L)) L = formatPhoneNumber v L := by
  have hall : ∀ c ∈ (stripDigits v).toList, c.isDigit = true := all_isDigit_stripDigits v
  by_cases h6 : (stripDigits v).toList.length ≤ 6
  · have h2 : stripDigits (formatPhoneNumber v L) = stripDigits v := by
      apply string_ext_of_toList
      rw [digits_format]
      simp only [length_toList]
      rw [if_pos h6]
    rw [h2, format_stripDigits]
  · have h2 : stripDigits (formatPhoneNumber v L) =
        String.mk ((stripDigits v).toList.take 6 ++
          ((stripDigits v).toList.drop 6).take (L - 6)) := by
      apply string_ext_of_toList
      rw [digits_format]
      simp only [length_toList, toList_mk]
      rw [if_neg h6]
    set l := (stripDigits v).toList with hl
    set l2 := l.take 6 ++ (l.drop 6).take (L - 6) with hl2
    have hall2 : ∀ c ∈ l2, c.isDigit = true := by
      intro c hc
      rcases List.mem_append.mp hc with hc | hc
      · exact hall c (List.take_subset _ _ hc)
      · exact hall c (List.drop_subset _ _ (List.take_subset _ _ hc))
    have hlen2 : l2.length = 6 + min (L - 6) (l.length - 6) := by
      rw [hl2, List.length_append, List.length_take, List.length_take, List.length_drop]
      omega
    have hmin1 : 1 ≤ min (L - 6) (l.length - 6) := by omega
    have hRHS : formatPhoneNumber v L = formatPhoneNumber (String.mk l) L := by
      rw [hl, mk_toList, format_stripDigits]
    rw [h2, hRHS, format_of_digits l2 hall2 L, format_of_digits l hall L]
    rw [if_neg (by omega), if_neg (by omega), if_neg (by omega), if_neg (by omega)]
    have hA : l2.take 3 = l.take 3 := by
      rw [hl2, List.take_append_of_le_length (by rw [List.length_take]; omega),
        List.take_take]
      norm_num
    have hB : (l2.drop 3).take 3 = (l.drop 3).take 3 := by
      rw [hl2, List.drop_append_of_le_length (by rw [List.length_take]; omega)]
      rw [List.take_append_of_le_length
        (by rw [List.length_drop, List.length_take]; omega)]
      rw [List.drop_take]
      norm_num [List.take_take]
    have hC : (l2.drop 6).take (L - 6) = (l.drop 6).take (L - 6) := by
      rw [hl2, List.drop_append_of_le_length (by rw [List.length_take]; omega)]
      rw [List.drop_of_length_le (by rw [List.length_take]; omega), List.nil_append]
      rw [List.take_take, Nat.min_self]
    rw [hA, hB, hC]

/-! The phone form transitions, unfolded. -/

/-- `handlePhoneChange` is a no-op when no country is selected
(`if (!selectedCountry) return;`). -/
theorem edit_noop (s : PhoneFormState) (t : String) (h : s.selectedCountry = none) :
    handlePhoneChange s t = s := by
  unfold handlePhoneChange
  rw [h]

/-- `handlePhoneChange` with an active selection, written out. -/
theorem edit_some (s : PhoneFormState) (c : CountryWithISO) (t : String)
    (h : s.selectedCountry = some c) :
    handlePhoneChange s t =
      { s with
        phoneNumber := formatPhoneNumber (stripDigits t) c.phone_length,
        error :=
          if (stripDigits t).length ≠ c.phone_length then
            some ("Phone number must be " ++ toString c.phone_length ++ " digits long.")
          else
            none } := by
  unfold handlePhoneChange
  rw [h]

/-- Claim C2 counterexample: the state reached by selecting the US entry
(expected length 10) from the initial state is reachable, has an active
selection, has zero raw digits (so the digit count differs from the
expected length), and yet its validation error is none --- the code
resets the error on `SelectCountry`, so the claimed biconditional fails
there. -/
theorem c2_counterexample :
    Reachable (handleCountryChange initialState usSel) ∧
    (handleCountryChange initialState usSel).selectedCountry = some usSel ∧
    (stripDigits (handleCountryChange initialState usSel).phoneNumber).length ≠
      usSel.phone_length ∧
    (handleCountryChange initialState usSel).error = none :=
  ⟨Reachable.select initialState usSel Reachable.init, rfl, by decide, rfl⟩

/-- Claim C2 (amended): in every reachable state a non-none validation
error implies a selection exists; `SelectCountry` always resets the
validation error to none (even though it also empties the raw digits);
and immediately after every `EditPhone` with an active selection of
expected length `L`, the validation error is non-none iff the candidate
digit count differs from `L`. -/
theorem c2_error_invariant :
    (∀ s, Reachable s → s.error ≠ none → s.selectedCountry ≠ none) ∧
    (∀ (s : PhoneFormState) (c : CountryWithISO),
      (handleCountryChange s c).error = none) ∧
    (∀ (s : PhoneFormState) (c : CountryWithISO) (t : String),
      s.selectedCountry = some c →
      ((handlePhoneChange s t).error ≠ none ↔
        (stripDigits t).length ≠ c.phone_length)) := by
  refine ⟨?_, fun s c => rfl, ?_⟩
  · intro s hs
    induction hs with
    | init => intro h; exact absurd rfl h
    | select s c _ _ => intro _; simp [handleCountryChange]
    | edit s t hr ih =>
      intro he
      cases hsc : s.selectedCountry with
      | none =>
        rw [edit_noop s t hsc] at he ⊢
        exact ih he
      | some c =>
        rw [edit_some s c t hsc]
        simp [hsc]
  · intro s c t h
    rw [edit_some s c t h]
    split_ifs with hlen
    · simpa using hlen
    · simpa using hlen

/-- Witness for `c2_error_invariant` at concrete inputs: after selecting
the US entry and typing "555123" the error is set, the resulting state
(which is reachable) has a selection, and a fresh `SelectCountry` clears
the error again. -/
theorem c2_witness :
    (handlePhoneChange stUS "555123").selectedCountry ≠ none ∧
    (handleCountryChange stUS usSel).error = none ∧
    (handlePhoneChange stUS "555123").error ≠ none := by
  have h3 := (c2_error_invariant.2.2 stUS usSel "555123" rfl).mpr (by decide)
  exact ⟨c2_error_invariant.1 (handlePhoneChange stUS "555123")
      (Reachable.edit stUS "555123" (Reachable.select initialState usSel Reachable.init)) h3,
    c2_error_invariant.2.1 stUS usSel, h3⟩

/-- Claim C3: with an active selection of expected length `L`, an
`EditPhone` stores `format(candidate, L)` as the display text, sets the
error to exactly "Phone number must be L digits long." (with `L` printed
in decimal by `toString`) when the candidate digit count differs from
`L`, and clears it when the count equals `L`. -/
theorem c3_edit_phone (s : PhoneFormState) (c : CountryWithISO) (t : String)
    (h : s.selectedCountry = some c) :
    (handlePhoneChange s t).phoneNumber =
      formatPhoneNumber (stripDigits t) c.phone_length ∧
    ((stripDigits t).length ≠ c.phone_length →
      (handlePhoneChange s t).error =
        some ("Phone number must be " ++ toString c.phone_length ++ " digits long.")) ∧
    ((stripDigits t).length = c.phone_length →
      (handlePhoneChange s t).error = none) := by
  rw [edit_some s c t h]
  refine ⟨rfl, ?_, ?_⟩
  · intro hne
    simp [hne]
  · intro heq
    simp [heq]

/-- Witness for `c3_edit_phone`: the spec scenario, expected length 10
and input "555123". -/
theorem c3_witness :
    (handlePhoneChange stUS "555123").phoneNumber = "(555) 123" ∧
    (handlePhoneChange stUS "555123").error =
      some "Phone number must be 10 digits long." := by
  have h := c3_edit_phone stUS usSel "555123" rfl
  exact ⟨h.1.trans (by decide), (h.2.1 (by decide)).trans (by decide)⟩

/-- Claim C5: `SelectCountry` is legal from every prior state, installs
the given selection, and resets the phone text and the validation error
to their initial values. -/
theorem c5_select_country_resets (s : PhoneFormState) (c : CountryWithISO) :
    (handleCountryChange s c).selectedCountry = some c ∧
    (handleCountryChange s c).phoneNumber = initialState.phoneNumber ∧
    (handleCountryChange s c).error = initialState.error :=
  ⟨rfl, rfl, rfl⟩

/-- Claim C9: with no active selection, `EditPhone` is a no-op: the
resulting state is the prior state, unchanged in every field.  The
handler is a total function into `PhoneFormState`, so both the missing
selection and a wrong digit count are represented as data (a no-op and
the `error` field), never as control-flow faults. -/
theorem c9_edit_noop_without_selection (s : PhoneFormState) (t : String)
    (h : s.selectedCountry = none) :
    handlePhoneChange s t = s :=
  edit_noop s t h

/-- Witness for `c9_edit_noop_without_selection`: editing from the
initial state (which has no selection) changes nothing. -/
theorem c9_witness : handlePhoneChange initialState "abc123" = initialState :=
  c9_edit_noop_without_selection initialState "abc123" rfl

/-- Claim C4: submit eligibility (the negation of `isSubmitDisabled`) is
false in every state with no selected country; in every state with a
selection it is a "≥" comparison of the stored digit count against the
expected length; and right after an `EditPhone` with candidate digits
`c` it holds iff `length c ≥ L` --- a "≥" check, unlike the
exact-equality check of the error message. -/
theorem c4_submit_eligibility :
    (∀ s, s.selectedCountry = none → isSubmitDisabled s = true) ∧
    (∀ (s : PhoneFormState) (c : CountryWithISO), s.selectedCountry = some c →
      (isSubmitDisabled s = false ↔
        c.phone_length ≤ (stripDigits s.phoneNumber).length)) ∧
    (∀ (s : PhoneFormState) (c : CountryWithISO) (t : String),
      s.selectedCountry = some c →
      (isSubmitDisabled (handlePhoneChange s t) = false ↔
        c.phone_length ≤ (stripDigits t).length)) := by
  have hsome : ∀ (s : PhoneFormState) (c : CountryWithISO), s.selectedCountry = some c →
      (isSubmitDisabled s = false ↔
        c.phone_length ≤ (stripDigits s.phoneNumber).length) := by
    intro s c h
    unfold isSubmitDisabled
    rw [h]
    simp [Nat.not_lt]
  refine ⟨?_, hsome, ?_⟩
  · intro s h
    unfold isSubmitDisabled
    rw [h]
  · intro s c t h
    have hstate := edit_some s c t h
    have hsel : (handlePhoneChange s t).selectedCountry = some c := by
      rw [hstate]
      exact h
    have hphone : (handlePhoneChange s t).phoneNumber =
        formatPhoneNumber (stripDigits t) c.phone_length := by
      rw [hstate]
    rw [hsome _ c hsel, hphone]
    have hd := digits_format_length (stripDigits t) c.phone_length
    rw [stripDigits_stripDigits] at hd
    rw [hd]
    split_ifs with h6
    · exact Iff.rfl
    · constructor
      · intro hle
        omega
      · intro hle
        omega

/-- Witness for `c4_submit_eligibility`: the initial state is not
submit-eligible, and after selecting the US entry (length 10) and typing
the ten digits 5551234567 the submit button is enabled. -/
theorem c4_witness :
    isSubmitDisabled initialState = true ∧
    isSubmitDisabled (handlePhoneChange stUS "5551234567") = false := by
  refine ⟨c4_submit_eligibility.1 initialState rfl, ?_⟩
  exact (c4_submit_eligibility.2.2 stUS usSel "5551234567" rfl).mpr (by decide)

/-- Claim C8 counterexample: at the digit string 1234567 with expected
length 6, the formatter emits "(123) 456-" whose digit extraction is
123456, and re-formatting that yields "(123) 456" --- a different
string, so idempotence fails as universally stated. -/
theorem c8_counterexample :
    formatPhoneNumber (stripDigits (formatPhoneNumber "1234567" 6)) 6 ≠
      formatPhoneNumber "1234567" 6 := by
  decide

/-- Witness for `c8_format_idempotent`: expected length 10, the
ten-digit US scenario. -/
theorem c8_witness :
    formatPhoneNumber (stripDigits (formatPhoneNumber "5551234567" 10)) 10 =
      formatPhoneNumber "5551234567" 10 :=
  c8_format_idempotent "5551234567" 10 (by norm_num)

/-- Claim C10: for every input string and expected length `L ≥ 7`, the
formatted display text has at most `L + 4` characters, so it fits the
`maxLength = parseInt(phone_length) + 4` cap that `App` places on the
phone input element. -/
theorem c10_display_fits (v : String) (L : Nat) (h : 7 ≤ L) :
    (formatPhoneNumber v L).length ≤ L + 4 := by
  have hp : ("(" : String).toList.length = 1 := by decide
  have hsp : (") " : String).toList.length = 2 := by decide
  have hdash : ("-" : String).toList.length = 1 := by decide
  unfold formatPhoneNumber
  simp only [jsSlice, jsSliceFrom]
  split_ifs with h3 h6
  · simp only [length_toList, toList_append, List.length_append, hp] at h3 ⊢
    omega
  · simp only [length_toList, toList_append, List.length_append, jsSlice, jsSliceFrom,
      toList_mk, List.length_take, List.length_drop, hp, hsp] at h3 h6 ⊢
    omega
  · simp only [length_toList, toList_append, List.length_append, jsSlice, jsSliceFrom,
      toList_mk, List.length_take, List.length_drop, hp, hsp, hdash] at h3 h6 ⊢
    omega

/-- Witness for `c10_display_fits`: a messy input against the US length
10 stays within 14 characters. -/
theorem c10_witness : (formatPhoneNumber "123-456-7890 ext 9" 10).length ≤ 10 + 4 :=
  c10_display_fits "123-456-7890 ext 9" 10 (by norm_num)

/-! The default-selection effect fires at most once. -/

theorem applyEvent_keeps_some (s : SelectorModel) (e : SelEvent)
    (h : s.selection.isSome) : (applyEvent s e).selection.isSome := by
  cases e <;> simp [applyEvent] <;> exact h

theorem autoSelect_of_some (s : SelectorModel) (h : s.selection.isSome) :
    autoSelect s = (s, false) := by
  unfold autoSelect
  rcases Option.isSome_iff_exists.mp h with ⟨c, hc⟩
  rw [if_neg (by simp [hc])]

theorem stepSel_preserves_some (s : SelectorModel) (e : SelEvent)
    (h : s.selection.isSome) :
    (stepSel s e).1.selection.isSome ∧ (stepSel s e).2 = false := by
  have h2 := applyEvent_keeps_some s e h
  unfold stepSel
  rw [autoSelect_of_some _ h2]
  exact ⟨h2, rfl⟩

theorem stepSel_fire_some (s : SelectorModel) (e : SelEvent)
    (h : (stepSel s e).2 = true) :
    (stepSel s e).1.selection.isSome := by
  unfold stepSel autoSelect at h ⊢
  split_ifs at h ⊢ with hc
  · rcases hc with ⟨hlen, _⟩
    cases hl : countriesArray (applyEvent s e).dir with
    | nil =>
      rw [hl] at hlen
      simp at hlen
    | cons a as =>
      simp [hl]

theorem runSel_no_fire (s : SelectorModel) (es : List SelEvent)
    (h : s.selection.isSome) : (runSel s es).2 = 0 := by
  induction es generalizing s with
  | nil => rfl
  | cons e es ih =>
    have hp := stepSel_preserves_some s e h
    simp only [runSel]
    rw [hp.2, ih _ hp.1]
    simp

theorem runSel_fires_le_one (s : SelectorModel) (es : List SelEvent) :
    (runSel s es).2 ≤ 1 := by
  induction es generalizing s with
  | nil => simp [runSel]
  | cons e es ih =>
    simp only [runSel]
    by_cases hf : (stepSel s e).2 = true
    · rw [hf, runSel_no_fire _ _ (stepSel_fire_some s e hf)]
      simp
    · rw [Bool.eq_false_iff.mpr hf]
      simpa using ih (stepSel s e).1

/-- Claim C6: over any event sequence from the mount state, the
default-selection effect of `CountrySelector` fires at most once (in
this model the only way a selection appears is through the upward
callback, so a "no selection" period, once ended by the effect, never
recurs --- in particular neither a directory change nor a filtered-list
change re-fires it); whenever it fires, the state had no selection and
the effect selects the first entry of the directory in iteration order
through the upward callback; and it does fire as soon as the directory
is non-empty while no selection exists. -/
theorem c6_auto_select_once :
    (∀ es, (runSel initSelector es).2 ≤ 1) ∧
    (∀ s e, (stepSel s e).2 = true →
      (applyEvent s e).selection = none ∧
      (stepSel s e).1.selection = (countriesArray (applyEvent s e).dir).head?) ∧
    (∀ s e, (applyEvent s e).selection = none →
      countriesArray (applyEvent s e).dir ≠ [] →
      (stepSel s e).2 = true) := by
  refine ⟨fun es => runSel_fires_le_one initSelector es, ?_, ?_⟩
  · intro s e hf
    unfold stepSel autoSelect at hf ⊢
    split_ifs at hf ⊢ with hc
    · exact ⟨hc.2, rfl⟩
  · intro s e hn hne
    unfold stepSel autoSelect
    rw [if_pos ⟨List.length_pos.mpr hne, hn⟩]

/-- Witness for `c6_auto_select_once`: a directory with one US entry
arrives at the mount state; the effect fires, and it selects the first
entry of the directory. -/
theorem c6_witness :
    (runSel initSelector [SelEvent.setDirectory [("US", usC)]]).2 ≤ 1 ∧
    (stepSel initSelector (SelEvent.setDirectory [("US", usC)])).1.selection =
      (countriesArray [("US", usC)]).head? := by
  refine ⟨c6_auto_select_once.1 [SelEvent.setDirectory [("US", usC)]], ?_⟩
  exact (c6_auto_select_once.2.1 initSelector
    (SelEvent.setDirectory [("US", usC)]) (by decide)).2

/-! The search filter of `CountrySelector`. -/

theorem isPrefixB_iff (needle hay : List Char) :
    isPrefixB needle hay = true ↔ ∃ r, hay = needle ++ r := by
  induction needle generalizing hay with
  | nil => simp [isPrefixB]
  | cons a as ih =>
    cases hay with
    | nil => simp [isPrefixB]
    | cons b bs =>
      rw [isPrefixB]
      simp only [Bool.and_eq_true, beq_iff_eq, ih, List.cons_append]
      constructor
      · rintro ⟨rfl, r, rfl⟩
        exact ⟨r, rfl⟩
      · rintro ⟨r, hr⟩
        rw [List.cons.injEq] at hr
        exact ⟨hr.1.symm, r, hr.2⟩

theorem substrB_iff (needle hay : List Char) :
    substrB needle hay = true ↔ ∃ l r, hay = l ++ needle ++ r := by
  induction hay with
  | nil =>
    rw [substrB, isPrefixB_iff]
    constructor
    · rintro ⟨r, hr⟩
      exact ⟨[], r, by simpa using hr⟩
    · rintro ⟨l, r, hr⟩
      simp only [List.nil_eq, List.append_eq_nil] at hr
      exact ⟨[], by simp [hr.1.2, hr.2]⟩
  | cons c rest ih =>
    rw [substrB]
    simp only [Bool.or_eq_true, isPrefixB_iff, ih]
    constructor
    · rintro (⟨r, hr⟩ | ⟨l, r, hr⟩)
      · exact ⟨[], r, by simpa using hr⟩
      · exact ⟨c :: l, r, by simp [hr]⟩
    · rintro ⟨l, r, hr⟩
      cases l with
      | nil =>
        left
        exact ⟨r, by simpa using hr⟩
      | cons x xs =>
        right
        simp only [List.cons_append, List.cons.injEq] at hr
        exact ⟨xs, r, hr.2⟩

theorem jsIncludes_iff (hay needle : String) :
    jsIncludes hay needle = true ↔ ContainsSpec hay needle := by
  unfold jsIncludes ContainsSpec
  exact substrB_iff needle.toList hay.toList

/-- Claim C7: for every directory array and search term the filtered
list is a sublist of the array (so it preserves directory iteration
order), membership holds exactly for the countries whose lowercased
name contains the lowercased search term as a substring, and the spec
example holds: searching "fra" against France and Germany yields
exactly France. -/
theorem c7_filtered_characterization :
    (∀ (arr : List CountryWithISO) (q : String),
      List.Sublist (filteredCountries arr q) arr) ∧
    (∀ (arr : List CountryWithISO) (q : String) (c : CountryWithISO),
      c ∈ filteredCountries arr q ↔
        c ∈ arr ∧ ContainsSpec (jsToLower c.name) (jsToLower q)) ∧
    filteredCountries [franceSel, germanySel] "fra" = [franceSel] := by
  refine ⟨?_, ?_, ?_⟩
  · intro arr q
    exact List.filter_sublist arr
  · intro arr q c
    rw [filteredCountries, List.mem_filter]
    exact and_congr_right fun _ => jsIncludes_iff _ _
  · decide
